import Mathlib

/-!
Shallow embedding of the `bankingsystem-rust` repository (src/user.rs, src/main.rs).

Machine model: all balance fields are Rust `u32`. We model `u32` values as `Nat`
together with the bound `U32_LIM = 2^32`. Rust `checked_add` / `checked_sub`
become `chkAdd` / `chkSub` returning `Option Nat`; `saturating_mul` becomes
`satMul`. Plain arithmetic on `u32` (`+`, `-`, `*`, `+=`, `-=`) is
overflow-checked in the Rust build the repository runs under (debug profile,
and the spec demands that "all arithmetic must detect overflow and fail rather
than wrap"), so a plain operation that leaves the `u32` range is a panic.
A panic (`.expect`, overflow of a plain operation) aborts the process; we model
it as the outer `Option` being `none`. A recoverable error (`Result::Err`) is
`Except.error`. Functions taking `&mut` parameters return the final value of
every `&mut` parameter next to the `Result`, so that state left behind by an
early `return Err(..)` is visible — exactly as a Rust caller observes it.
-/

namespace Banking

/-- `2^32`, one past the largest `u32` value. -/
def U32_LIM : Nat := 4294967296

/-- Rust `u32::checked_add`: `none` on overflow. -/
def chkAdd (a b : Nat) : Option Nat :=
  if a + b < U32_LIM then some (a + b) else none

/-- Rust `u32::checked_sub`: `none` on underflow. -/
def chkSub (a b : Nat) : Option Nat :=
  if b ≤ a then some (a - b) else none

/-- Rust plain `u32` multiplication under overflow checks: `none` when the
product leaves the `u32` range. -/
def chkMul (a b : Nat) : Option Nat :=
  if a * b < U32_LIM then some (a * b) else none

/-- Rust `u32::saturating_mul`. -/
def satMul (a b : Nat) : Nat :=
  min (a * b) (U32_LIM - 1)

/-- `struct User` from src/user.rs. -/
structure User where
  id : Nat
  name : String
  total_deposited : Nat
  total_withdrawn : Nat
  has_deposited : Bool
  borrowable : Bool
deriving DecidableEq

/-- `struct Treasury` from src/user.rs. -/
structure Treasury where
  sum_deposited : Nat
  sum_withdrawn : Nat
deriving DecidableEq

/-- `User::default()`: all-zero, empty name, both flags false. -/
def freshUser : User := ⟨0, "", 0, 0, false, false⟩

/-- `Treasury::default()`. -/
def freshTreasury : Treasury := ⟨0, 0⟩

/-- `User::deposit`. Adds `amount` to the user's `total_deposited` and to
`treasury.sum_deposited` (both `checked_add(..).expect(..)`, hence a panic —
`none` — on overflow), sets `has_deposited` and overwrites `borrowable`. -/
def deposit (u : User) (amount : Nat) (t : Treasury) (is_borrowable : Bool) :
    Option (User × Treasury) := do
  let d ← chkAdd u.total_deposited amount
  let s ← chkAdd t.sum_deposited amount
  pure ({ u with total_deposited := d, has_deposited := true,
                 borrowable := is_borrowable },
        { t with sum_deposited := s })

/-- `User::withdraw`. The guard `self.total_withdrawn + amount` is a plain
`u32` addition (panic on overflow); on the success path
`self.total_deposited -= amount` is safe under the guard, the two increments
are `checked_add(..).expect(..)`, and `treasury.sum_deposited -= amount` is a
plain subtraction (panic on underflow). Returns the updated `total_withdrawn`
or the recoverable error `"Something Went Wrong"`. -/
def withdraw (u : User) (amount : Nat) (t : Treasury) :
    Option (User × Treasury × Except String Nat) := do
  let w ← chkAdd u.total_withdrawn amount
  if w ≤ u.total_deposited then do
    let tw ← chkAdd u.total_withdrawn amount
    let sd ← chkSub t.sum_deposited amount
    let sw ← chkAdd t.sum_withdrawn amount
    pure ({ u with total_deposited := u.total_deposited - amount,
                   total_withdrawn := tw },
          { t with sum_deposited := sd, sum_withdrawn := sw },
          Except.ok tw)
  else
    pure (u, t, Except.error "Something Went Wrong")

/-- `User::calculate_entry_fee`: `amount.saturating_mul(200) / 10_000`. -/
def calculate_entry_fee (amount : Nat) : Nat :=
  satMul amount 200 / 10000

/-- `User::calculate_exit_fee`: `amount.saturating_mul(400) / 10_000`. -/
def calculate_exit_fee (amount : Nat) : Nat :=
  satMul amount 400 / 10000

/-- `User::deposit_with_fee`: net = `amount.checked_sub(fee).expect(..)`
(panic if the fee exceeded the amount), then `deposit` of the net amount. -/
def deposit_with_fee (u : User) (amount : Nat) (t : Treasury)
    (is_borrowable : Bool) : Option (User × Treasury) := do
  let net ← chkSub amount (calculate_entry_fee amount)
  deposit u net t is_borrowable

/-- `User::withdraw_with_fee`: total = `amount.checked_add(fee)`, overflow
surfaced as the recoverable error `"Withdrawal fee calculation error"`, then
delegates to `withdraw` with the inflated total. -/
def withdraw_with_fee (u : User) (amount : Nat) (t : Treasury) :
    Option (User × Treasury × Except String Nat) :=
  match chkAdd amount (calculate_exit_fee amount) with
  | none => some (u, t, Except.error "Withdrawal fee calculation error")
  | some total => withdraw u total t

/-- The message of `borrow`'s limit-exceeded error, with
`BORROW_PERCENTAGE = 10` already formatted in. -/
def borrowLimitMsg (max_borrowable : Nat) : String :=
  "Cannot borrow more than 10% of lender's deposit. Maximum: " ++
    toString max_borrowable

/-- `User::borrow` (`self` is the borrower). `lender.total_deposited * 10` is
a plain multiplication (panic on overflow). Mirrors the Rust mutation order:
when the borrower-side `checked_add` fails, `lender.total_deposited` has
already been reassigned, so the error is returned with the lender debited. -/
def borrow (b : User) (lender : User) (amount : Nat) :
    Option (User × User × Except String Nat) := do
  if !lender.borrowable then
    pure (b, lender, Except.error "Lender has not enabled borrowing")
  else do
    let p ← chkMul lender.total_deposited 10
    let max_borrowable := p / 100
    if max_borrowable < amount then
      pure (b, lender, Except.error (borrowLimitMsg max_borrowable))
    else if lender.total_deposited < amount then
      pure (b, lender, Except.error "Insufficient funds in lender's account")
    else
      match chkSub lender.total_deposited amount with
      | none => pure (b, lender, Except.error "Arithmetic overflow")
      | some ld =>
        match chkAdd b.total_deposited amount with
        | none =>
          pure (b, { lender with total_deposited := ld },
                Except.error "Arithmetic overflow")
        | some bd =>
          pure ({ b with total_deposited := bd },
                { lender with total_deposited := ld }, Except.ok amount)

/-- `Treasury::calculate_interest_rate`: requires both sums positive, else the
recoverable error `"Invalid treasury state"`; otherwise
`sum_deposited.saturating_mul(user.total_deposited) / sum_withdrawn`. -/
def calculate_interest_rate (t : Treasury) (u : User) : Except String Nat :=
  if 0 < t.sum_deposited ∧ 0 < t.sum_withdrawn then
    Except.ok (satMul t.sum_deposited u.total_deposited / t.sum_withdrawn)
  else
    Except.error "Invalid treasury state"

/-- `Treasury::apply_interest`. All overflow here is surfaced as recoverable
errors, so no panic is possible. Mirrors the Rust mutation order: when the
treasury-side `checked_add` fails, `user.total_deposited` has already been
reassigned. -/
def apply_interest (t : Treasury) (u : User) :
    Treasury × User × Except String Nat :=
  match calculate_interest_rate t u with
  | Except.error e => (t, u, Except.error e)
  | Except.ok interest =>
    match chkAdd u.total_deposited interest with
    | none => (t, u, Except.error "Arithmetic overflow when applying interest")
    | some ud =>
      match chkAdd t.sum_deposited interest with
      | none =>
        (t, { u with total_deposited := ud },
         Except.error "Arithmetic overflow when applying interest to treasury")
      | some sd =>
        ({ t with sum_deposited := sd }, { u with total_deposited := ud },
         Except.ok interest)

/-- One operation of the driver-visible API, acting on a system of users
addressed by position in a list, plus the one shared treasury. -/
inductive Op where
  | deposit (i : Nat) (amount : Nat) (is_borrowable : Bool)
  | depositWithFee (i : Nat) (amount : Nat) (is_borrowable : Bool)
  | withdraw (i : Nat) (amount : Nat)
  | withdrawWithFee (i : Nat) (amount : Nat)
  | borrow (bi : Nat) (li : Nat) (amount : Nat)
  | applyInterest (i : Nat)
deriving DecidableEq

/-- All users of the system together with the shared treasury. -/
structure SysState where
  users : List User
  treasury : Treasury
deriving DecidableEq

/-- Sum of all users' `total_deposited`. -/
def sumDep : List User → Nat
  | [] => 0
  | u :: rest => u.total_deposited + sumDep rest

/-- Run one operation; `none` when it does not execute successfully: bad
index, recoverable error, panic, or `bi = li` in `borrow` (Rust's borrow
checker rules out aliasing the two `&mut User` arguments). -/
def applyOp (s : SysState) : Op → Option SysState
  | .deposit i a b => do
      let u ← s.users[i]?
      let (u2, t2) ← deposit u a s.treasury b
      pure ⟨s.users.set i u2, t2⟩
  | .depositWithFee i a b => do
      let u ← s.users[i]?
      let (u2, t2) ← deposit_with_fee u a s.treasury b
      pure ⟨s.users.set i u2, t2⟩
  | .withdraw i a => do
      let u ← s.users[i]?
      match withdraw u a s.treasury with
      | some (u2, t2, Except.ok _) => pure ⟨s.users.set i u2, t2⟩
      | _ => none
  | .withdrawWithFee i a => do
      let u ← s.users[i]?
      match withdraw_with_fee u a s.treasury with
      | some (u2, t2, Except.ok _) => pure ⟨s.users.set i u2, t2⟩
      | _ => none
  | .borrow bi li a =>
      if bi = li then none else do
        let ub ← s.users[bi]?
        let ul ← s.users[li]?
        match borrow ub ul a with
        | some (ub2, ul2, Except.ok _) =>
            pure ⟨(s.users.set bi ub2).set li ul2, s.treasury⟩
        | _ => none
  | .applyInterest i => do
      let u ← s.users[i]?
      match apply_interest s.treasury u with
      | (t2, u2, Except.ok _) => pure ⟨s.users.set i u2, t2⟩
      | _ => none

/-- Run a whole sequence of operations; `some` only when every operation in
the sequence executed successfully. -/
def runOps : SysState → List Op → Option SysState
  | s, [] => some s
  | s, op :: rest =>
    match applyOp s op with
    | some s2 => runOps s2 rest
    | none => none

/-- A user with a balance of 5 and nothing withdrawn. -/
def cxUser : User := ⟨0, "", 5, 0, false, false⟩

/-- A lender with 1000 deposited who has enabled borrowing. -/
def borrowableLender : User := ⟨0, "", 1000, 0, false, true⟩

/-- A lender with 1000 deposited who has not enabled borrowing. -/
def notBorrowableLender : User := ⟨0, "", 1000, 0, false, false⟩

/-- A borrower whose balance is already at `u32::MAX`. -/
def maxedBorrower : User := ⟨0, "", 4294967295, 0, false, false⟩

/-- `withdraw` returns `Ok`. -/
def withdrawSucceeds (u : User) (a : Nat) (t : Treasury) : Prop :=
  ∃ u2 t2 r, withdraw u a t = some (u2, t2, Except.ok r)

/-- The success-condition part of claim C1, at one input: `withdraw` succeeds
exactly when `total_withdrawn + amount ≤ total_deposited`. -/
def claimC1At (u : User) (a : Nat) (t : Treasury) : Prop :=
  withdrawSucceeds u a t ↔ u.total_withdrawn + a ≤ u.total_deposited

/-- Claim C3 at one input: whenever `amount` exceeds
`lender.total_deposited * 10 / 100` in exact arithmetic, `borrow` fails with
the error naming that maximum. -/
def claimC3At (b l : User) (a : Nat) : Prop :=
  l.total_deposited * 10 / 100 < a →
    ∃ b2 l2, borrow b l a =
      some (b2, l2, Except.error (borrowLimitMsg (l.total_deposited * 10 / 100)))

/-- Claim C5 at one deposit amount: depositing with fee into a fresh
user/treasury and then withdrawing the credited net with fee leaves
`total_withdrawn ≤ total_deposited` at every step, final state included. -/
def claimC5At (amount : Nat) : Prop :=
  ∀ u1 t1 u2 t2 r,
    deposit_with_fee freshUser amount freshTreasury true = some (u1, t1) →
    withdraw_with_fee u1 u1.total_deposited t1 = some (u2, t2, r) →
    u1.total_withdrawn ≤ u1.total_deposited ∧
    u2.total_withdrawn ≤ u2.total_deposited

/-- A short successful run: one fee deposit, one borrow, one withdrawal. -/
def demoOps : List Op :=
  [Op.depositWithFee 0 1000 true, Op.borrow 1 0 98, Op.withdraw 0 50]

/-- The state `demoOps` reaches from two fresh users and a fresh treasury. -/
def demoEnd : SysState :=
  ⟨[⟨0, "", 832, 50, true, true⟩, ⟨0, "", 98, 0, false, false⟩], ⟨930, 50⟩⟩

/-- The user produced by `deposit_with_fee` of 100 into a fresh user. -/
def w5u1 : User := ⟨0, "", 98, 0, true, true⟩

/-- The treasury produced alongside `w5u1` (for amount 100: net 98). -/
def w5t1 : Treasury := ⟨98, 0⟩

theorem chkAdd_some {a b c : Nat} (h : chkAdd a b = some c) :
    c = a + b ∧ a + b < U32_LIM := by
  unfold chkAdd at h
  split at h <;> simp_all

theorem chkSub_some {a b c : Nat} (h : chkSub a b = some c) :
    c = a - b ∧ b ≤ a := by
  unfold chkSub at h
  split at h <;> simp_all

theorem chkMul_some {a b c : Nat} (h : chkMul a b = some c) :
    c = a * b ∧ a * b < U32_LIM := by
  unfold chkMul at h
  split at h <;> simp_all

theorem chkAdd_lt {a b : Nat} (h : a + b < U32_LIM) :
    chkAdd a b = some (a + b) := by
  unfold chkAdd
  simp [h]

theorem chkSub_le {a b : Nat} (h : b ≤ a) :
    chkSub a b = some (a - b) := by
  unfold chkSub
  simp [h]

theorem deposit_eq_some {u : User} {a : Nat} {t : Treasury} {b : Bool}
    {u2 : User} {t2 : Treasury} (h : deposit u a t b = some (u2, t2)) :
    u2 = { u with total_deposited := u.total_deposited + a,
                  has_deposited := true, borrowable := b } ∧
    t2 = { t with sum_deposited := t.sum_deposited + a } ∧
    u.total_deposited + a < U32_LIM ∧ t.sum_deposited + a < U32_LIM := by
  unfold deposit at h
  cases h1 : chkAdd u.total_deposited a with
  | none => rw [h1] at h; simp at h
  | some d =>
    cases h2 : chkAdd t.sum_deposited a with
    | none => rw [h1, h2] at h; simp at h
    | some s =>
      rw [h1, h2] at h
      obtain ⟨hd, hdlt⟩ := chkAdd_some h1
      obtain ⟨hs, hslt⟩ := chkAdd_some h2
      simp at h
      exact ⟨by rw [← h.1, hd], by rw [← h.2, hs], hdlt, hslt⟩

theorem withdraw_eq_some {u : User} {a : Nat} {t : Treasury}
    {u2 : User} {t2 : Treasury} {r : Except String Nat}
    (h : withdraw u a t = some (u2, t2, r)) :
    u.total_withdrawn + a < U32_LIM ∧
    ((u.total_withdrawn + a ≤ u.total_deposited ∧
      a ≤ t.sum_deposited ∧ t.sum_withdrawn + a < U32_LIM ∧
      u2 = { u with total_deposited := u.total_deposited - a,
                    total_withdrawn := u.total_withdrawn + a } ∧
      t2 = { t with sum_deposited := t.sum_deposited - a,
                    sum_withdrawn := t.sum_withdrawn + a } ∧
      r = Except.ok (u.total_withdrawn + a)) ∨
     (u.total_deposited < u.total_withdrawn + a ∧
      u2 = u ∧ t2 = t ∧ r = Except.error "Something Went Wrong")) := by
  unfold withdraw at h
  cases h1 : chkAdd u.total_withdrawn a with
  | none => rw [h1] at h; simp at h
  | some w =>
    rw [h1] at h
    obtain ⟨hw, hwlt⟩ := chkAdd_some h1
    subst hw
    refine ⟨hwlt, ?_⟩
    by_cases hg : u.total_withdrawn + a ≤ u.total_deposited
    · simp only [bind, Option.bind] at h
      rw [if_pos hg] at h
      cases h2 : chkSub t.sum_deposited a with
      | none => rw [h2] at h; simp at h
      | some sd =>
        rw [h2] at h
        obtain ⟨hsd, hsdle⟩ := chkSub_some h2
        subst hsd
        cases h3 : chkAdd t.sum_withdrawn a with
        | none => rw [h3] at h; simp at h
        | some sw =>
          rw [h3] at h
          obtain ⟨hsw, hswlt⟩ := chkAdd_some h3
          subst hsw
          simp at h
          exact Or.inl ⟨hg, hsdle, hswlt, h.1.symm, h.2.1.symm, h.2.2.symm⟩
    · simp only [bind, Option.bind] at h
      rw [if_neg hg] at h
      simp at h
      exact Or.inr ⟨by omega, h.1.symm, h.2.1.symm, h.2.2.symm⟩

theorem withdraw_ok {u : User} {a : Nat} {t : Treasury}
    {u2 : User} {t2 : Treasury} {r : Nat}
    (h : withdraw u a t = some (u2, t2, Except.ok r)) :
    u.total_withdrawn + a ≤ u.total_deposited ∧
    a ≤ t.sum_deposited ∧ t.sum_withdrawn + a < U32_LIM ∧
    u2 = { u with total_deposited := u.total_deposited - a,
                  total_withdrawn := u.total_withdrawn + a } ∧
    t2 = { t with sum_deposited := t.sum_deposited - a,
                  sum_withdrawn := t.sum_withdrawn + a } ∧
    r = u.total_withdrawn + a := by
  obtain ⟨-, hc | hc⟩ := withdraw_eq_some h
  · exact ⟨hc.1, hc.2.1, hc.2.2.1, hc.2.2.2.1, hc.2.2.2.2.1, by
      have := hc.2.2.2.2.2
      simp at this
      exact this⟩
  · exact absurd hc.2.2.2 (by simp)

theorem withdraw_err {u : User} {a : Nat} {t : Treasury}
    {u2 : User} {t2 : Treasury} {e : String}
    (h : withdraw u a t = some (u2, t2, Except.error e)) :
    u2 = u ∧ t2 = t := by
  obtain ⟨-, hc | hc⟩ := withdraw_eq_some h
  · exact absurd hc.2.2.2.2.2 (by simp)
  · exact ⟨hc.2.1, hc.2.2.1⟩

theorem withdraw_with_fee_eq_some {u : User} {a : Nat} {t : Treasury}
    {u2 : User} {t2 : Treasury} {r : Except String Nat}
    (h : withdraw_with_fee u a t = some (u2, t2, r)) :
    (a + calculate_exit_fee a < U32_LIM ∧
       withdraw u (a + calculate_exit_fee a) t = some (u2, t2, r)) ∨
    (U32_LIM ≤ a + calculate_exit_fee a ∧ u2 = u ∧ t2 = t ∧
       r = Except.error "Withdrawal fee calculation error") := by
  unfold withdraw_with_fee at h
  cases h1 : chkAdd a (calculate_exit_fee a) with
  | none =>
    rw [h1] at h
    unfold chkAdd at h1
    split at h1
    · exact absurd h1 (by simp)
    · simp at h
      exact Or.inr ⟨by omega, h.1.symm, h.2.1.symm, h.2.2.symm⟩
  | some total =>
    rw [h1] at h
    obtain ⟨ht, hlt⟩ := chkAdd_some h1
    subst ht
    exact Or.inl ⟨hlt, h⟩

theorem deposit_with_fee_eq_some {u : User} {a : Nat} {t : Treasury} {b : Bool}
    {u2 : User} {t2 : Treasury} (h : deposit_with_fee u a t b = some (u2, t2)) :
    deposit u (a - calculate_entry_fee a) t b = some (u2, t2) := by
  unfold deposit_with_fee at h
  cases h1 : chkSub a (calculate_entry_fee a) with
  | none => rw [h1] at h; simp at h
  | some net =>
    rw [h1] at h
    obtain ⟨hn, -⟩ := chkSub_some h1
    subst hn
    simpa using h

theorem borrow_not_borrowable {b l : User} {a : Nat} (hb : l.borrowable = false) :
    borrow b l a = some (b, l, Except.error "Lender has not enabled borrowing") := by
  unfold borrow
  simp [hb]

theorem borrow_limit {b l : User} {a : Nat} (hb : l.borrowable = true)
    (hm : l.total_deposited * 10 < U32_LIM)
    (ha : l.total_deposited * 10 / 100 < a) :
    borrow b l a =
      some (b, l, Except.error (borrowLimitMsg (l.total_deposited * 10 / 100))) := by
  unfold borrow
  rw [show chkMul l.total_deposited 10 = some (l.total_deposited * 10) by
        unfold chkMul; simp [hm]]
  simp [hb, ha]

theorem borrow_ok {b l : User} {a : Nat} {b2 l2 : User} {r : Nat}
    (h : borrow b l a = some (b2, l2, Except.ok r)) :
    l.borrowable = true ∧ l.total_deposited * 10 < U32_LIM ∧
    a ≤ l.total_deposited * 10 / 100 ∧ a ≤ l.total_deposited ∧
    b.total_deposited + a < U32_LIM ∧
    b2 = { b with total_deposited := b.total_deposited + a } ∧
    l2 = { l with total_deposited := l.total_deposited - a } ∧
    r = a := by
  unfold borrow at h
  by_cases hb : l.borrowable
  · rw [if_neg (by simp [hb])] at h
    cases h1 : chkMul l.total_deposited 10 with
    | none => rw [h1] at h; simp at h
    | some p =>
      rw [h1] at h
      obtain ⟨hp, hplt⟩ := chkMul_some h1
      subst hp
      simp only [bind, Option.bind] at h
      by_cases hlim : l.total_deposited * 10 / 100 < a
      · rw [if_pos hlim] at h
        simp at h
      · rw [if_neg hlim] at h
        by_cases hins : l.total_deposited < a
        · rw [if_pos hins] at h
          simp at h
        · rw [if_neg hins] at h
          rw [chkSub_le (by omega)] at h
          cases h2 : chkAdd b.total_deposited a with
          | none => rw [h2] at h; simp at h
          | some bd =>
            rw [h2] at h
            obtain ⟨hbd, hbdlt⟩ := chkAdd_some h2
            subst hbd
            simp at h
            exact ⟨hb, hplt, by omega, by omega, hbdlt,
                   h.1.symm, h.2.1.symm, h.2.2.symm⟩
  · rw [if_pos (by simp [Bool.not_eq_true] at hb; simp [hb])] at h
    simp at h

theorem borrow_err {b l : User} {a : Nat} {b2 l2 : User} {e : String}
    (h : borrow b l a = some (b2, l2, Except.error e)) :
    b2 = b ∧
    (l2 = l ∨
     (e = "Arithmetic overflow" ∧
      l2 = { l with total_deposited := l.total_deposited - a })) := by
  unfold borrow at h
  by_cases hb : l.borrowable
  · rw [if_neg (by simp [hb])] at h
    cases h1 : chkMul l.total_deposited 10 with
    | none => rw [h1] at h; simp at h
    | some p =>
      rw [h1] at h
      simp only [bind, Option.bind] at h
      by_cases hlim : p / 100 < a
      · rw [if_pos hlim] at h
        simp at h
        exact ⟨h.1.symm, Or.inl h.2.1.symm⟩
      · rw [if_neg hlim] at h
        by_cases hins : l.total_deposited < a
        · rw [if_pos hins] at h
          simp at h
          exact ⟨h.1.symm, Or.inl h.2.1.symm⟩
        · rw [if_neg hins] at h
          rw [chkSub_le (by omega)] at h
          cases h2 : chkAdd b.total_deposited a with
          | none =>
            rw [h2] at h
            simp at h
            exact ⟨h.1.symm, Or.inr ⟨h.2.2.symm, h.2.1.symm⟩⟩
          | some bd =>
            rw [h2] at h
            simp at h
  · rw [if_pos (by simp [Bool.not_eq_true] at hb; simp [hb])] at h
    simp at h
    exact ⟨h.1.symm, Or.inl h.2.1.symm⟩

theorem apply_interest_ok {t : Treasury} {u : User} {t2 : Treasury} {u2 : User}
    {r : Nat} (h : apply_interest t u = (t2, u2, Except.ok r)) :
    calculate_interest_rate t u = Except.ok r ∧
    u2 = { u with total_deposited := u.total_deposited + r } ∧
    t2 = { t with sum_deposited := t.sum_deposited + r } := by
  unfold apply_interest at h
  cases hc : calculate_interest_rate t u with
  | error e => simp only [hc] at h; simp at h
  | ok i =>
    simp only [hc] at h
    cases h1 : chkAdd u.total_deposited i with
    | none => simp only [h1] at h; simp at h
    | some ud =>
      simp only [h1] at h
      obtain ⟨hud, -⟩ := chkAdd_some h1
      subst hud
      cases h2 : chkAdd t.sum_deposited i with
      | none => simp only [h2] at h; simp at h
      | some sd =>
        simp only [h2] at h
        obtain ⟨hsd, -⟩ := chkAdd_some h2
        subst hsd
        simp at h
        obtain ⟨ht2, hu2, hir⟩ := h
        subst hir
        exact ⟨rfl, hu2.symm, ht2.symm⟩

theorem apply_interest_invalid_iff (t : Treasury) (u : User) :
    (apply_interest t u).2.2 = Except.error "Invalid treasury state" ↔
    ¬ (0 < t.sum_deposited ∧ 0 < t.sum_withdrawn) := by
  by_cases hc : 0 < t.sum_deposited ∧ 0 < t.sum_withdrawn
  · have hcalc : calculate_interest_rate t u =
        Except.ok (satMul t.sum_deposited u.total_deposited / t.sum_withdrawn) := by
      unfold calculate_interest_rate
      rw [if_pos hc]
    refine iff_of_false ?_ (not_not_intro hc)
    unfold apply_interest
    simp only [hcalc]
    cases h1 : chkAdd u.total_deposited
        (satMul t.sum_deposited u.total_deposited / t.sum_withdrawn) with
    | none =>
      simp only [h1]
      intro hh
      injection hh with hh
      exact absurd hh (by decide)
    | some ud =>
      simp only [h1]
      cases h2 : chkAdd t.sum_deposited
          (satMul t.sum_deposited u.total_deposited / t.sum_withdrawn) with
      | none =>
        simp only [h2]
        intro hh
        injection hh with hh
        exact absurd hh (by decide)
      | some sd =>
        simp only [h2]
        intro hh
        exact absurd hh (by simp)
  · have hcalc : calculate_interest_rate t u =
        Except.error "Invalid treasury state" := by
      unfold calculate_interest_rate
      rw [if_neg hc]
    refine iff_of_true ?_ hc
    unfold apply_interest
    simp only [hcalc]

theorem sumDep_set (l : List User) (i : Nat) (x : User) (h : i < l.length) :
    sumDep (l.set i x) + l[i].total_deposited =
    sumDep l + x.total_deposited := by
  induction l generalizing i with
  | nil => simp at h
  | cons a rest ih =>
    cases i with
    | zero => simp [sumDep]; omega
    | succ n =>
      simp only [List.set, sumDep, List.getElem_cons_succ]
      have := ih n (by simpa using h)
      omega

theorem get_le_sumDep (l : List User) (i : Nat) (h : i < l.length) :
    l[i].total_deposited ≤ sumDep l := by
  induction l generalizing i with
  | nil => simp at h
  | cons a rest ih =>
    cases i with
    | zero => simp [sumDep]
    | succ n =>
      simp only [sumDep, List.getElem_cons_succ]
      have := ih n (by simpa using h)
      omega

theorem inv_after_deposit {s : SysState} {i : Nat} {u u2 : User}
    {t2 : Treasury} {a : Nat} {bl : Bool}
    (hinv : s.treasury.sum_deposited = sumDep s.users)
    (hu : s.users[i]? = some u)
    (hd : deposit u a s.treasury bl = some (u2, t2)) :
    t2.sum_deposited = sumDep (s.users.set i u2) := by
  obtain ⟨hi, hget⟩ := List.getElem?_eq_some.mp hu
  obtain ⟨hu2, ht2, -, -⟩ := deposit_eq_some hd
  have hset := sumDep_set s.users i u2 hi
  rw [hget] at hset
  rw [ht2, hu2] at *
  simp at *
  omega

theorem inv_after_withdraw {s : SysState} {i : Nat} {u u2 : User}
    {t2 : Treasury} {a r : Nat}
    (hinv : s.treasury.sum_deposited = sumDep s.users)
    (hu : s.users[i]? = some u)
    (hw : withdraw u a s.treasury = some (u2, t2, Except.ok r)) :
    t2.sum_deposited = sumDep (s.users.set i u2) := by
  obtain ⟨hi, hget⟩ := List.getElem?_eq_some.mp hu
  obtain ⟨hg, hts, -, hu2, ht2, -⟩ := withdraw_ok hw
  have hset := sumDep_set s.users i u2 hi
  rw [hget] at hset
  have hle := get_le_sumDep s.users i hi
  rw [hget] at hle
  rw [ht2, hu2] at *
  simp at *
  omega

theorem applyOp_preserves_inv {s s2 : SysState} {op : Op}
    (hinv : s.treasury.sum_deposited = sumDep s.users)
    (h : applyOp s op = some s2) :
    s2.treasury.sum_deposited = sumDep s2.users := by
  cases op with
  | deposit i a bl =>
    simp only [applyOp] at h
    cases hu : s.users[i]? with
    | none => rw [hu] at h; simp at h
    | some u =>
      rw [hu] at h
      simp only [bind, Option.bind] at h
      cases hd : deposit u a s.treasury bl with
      | none => rw [hd] at h; simp at h
      | some p =>
        obtain ⟨u2, t2⟩ := p
        rw [hd] at h
        simp at h
        subst h
        exact inv_after_deposit hinv hu hd
  | depositWithFee i a bl =>
    simp only [applyOp] at h
    cases hu : s.users[i]? with
    | none => rw [hu] at h; simp at h
    | some u =>
      rw [hu] at h
      simp only [bind, Option.bind] at h
      cases hd : deposit_with_fee u a s.treasury bl with
      | none => rw [hd] at h; simp at h
      | some p =>
        obtain ⟨u2, t2⟩ := p
        rw [hd] at h
        simp at h
        subst h
        exact inv_after_deposit hinv hu (deposit_with_fee_eq_some hd)
  | withdraw i a =>
    simp only [applyOp] at h
    cases hu : s.users[i]? with
    | none => rw [hu] at h; simp at h
    | some u =>
      rw [hu] at h
      simp only [bind, Option.bind] at h
      cases hw : withdraw u a s.treasury with
      | none => simp only [hw] at h; simp at h
      | some p =>
        obtain ⟨u2, t2, res⟩ := p
        cases res with
        | error e => simp only [hw] at h; simp at h
        | ok r =>
          simp only [hw] at h
          simp at h
          subst h
          exact inv_after_withdraw hinv hu hw
  | withdrawWithFee i a =>
    simp only [applyOp] at h
    cases hu : s.users[i]? with
    | none => rw [hu] at h; simp at h
    | some u =>
      rw [hu] at h
      simp only [bind, Option.bind] at h
      cases hw : withdraw_with_fee u a s.treasury with
      | none => simp only [hw] at h; simp at h
      | some p =>
        obtain ⟨u2, t2, res⟩ := p
        cases res with
        | error e => simp only [hw] at h; simp at h
        | ok r =>
          simp only [hw] at h
          simp at h
          subst h
          rcases withdraw_with_fee_eq_some hw with ⟨-, hww⟩ | ⟨-, -, -, hbad⟩
          · exact inv_after_withdraw hinv hu hww
          · exact absurd hbad (by simp)
  | borrow bi li a =>
    simp only [applyOp] at h
    by_cases hne : bi = li
    · rw [if_pos hne] at h; simp at h
    · rw [if_neg hne] at h
      cases hub : s.users[bi]? with
      | none => rw [hub] at h; simp at h
      | some ub =>
        rw [hub] at h
        simp only [bind, Option.bind] at h
        cases hul : s.users[li]? with
        | none => rw [hul] at h; simp at h
        | some ul =>
          rw [hul] at h
          simp only [bind, Option.bind] at h
          cases hbr : borrow ub ul a with
          | none => simp only [hbr] at h; simp at h
          | some p =>
            obtain ⟨ub2, ul2, res⟩ := p
            cases res with
            | error e => simp only [hbr] at h; simp at h
            | ok r =>
              simp only [hbr] at h
              simp at h
              subst h
              obtain ⟨hbi, hgetb⟩ := List.getElem?_eq_some.mp hub
              obtain ⟨hli, hgetl⟩ := List.getElem?_eq_some.mp hul
              obtain ⟨-, -, -, hale, -, hub2, hul2, -⟩ := borrow_ok hbr
              subst hub2
              subst hul2
              have hset1 := sumDep_set s.users bi
                { ub with total_deposited := ub.total_deposited + a } hbi
              rw [hgetb] at hset1
              have hli2 : li <
                  (s.users.set bi
                    { ub with total_deposited := ub.total_deposited + a }).length := by
                simpa using hli
              have hset2 := sumDep_set
                (s.users.set bi { ub with total_deposited := ub.total_deposited + a })
                li { ul with total_deposited := ul.total_deposited - a } hli2
              have hgl : (s.users.set bi
                  { ub with total_deposited := ub.total_deposited + a })[li] = ul := by
                rw [List.getElem_set_of_ne hne]
                exact hgetl
              rw [hgl] at hset2
              simp at hset1 hset2
              simp
              omega
  | applyInterest i =>
    simp only [applyOp] at h
    cases hu : s.users[i]? with
    | none => rw [hu] at h; simp at h
    | some u =>
      rw [hu] at h
      simp only [bind, Option.bind] at h
      cases hai : apply_interest s.treasury u with
      | mk t2 p =>
        obtain ⟨u2, res⟩ := p
        cases res with
        | error e => simp only [hai] at h; simp at h
        | ok r =>
          simp only [hai] at h
          simp at h
          subst h
          obtain ⟨hi, hget⟩ := List.getElem?_eq_some.mp hu
          obtain ⟨-, hu2, ht2⟩ := apply_interest_ok hai
          subst hu2
          have hset := sumDep_set s.users i
            { u with total_deposited := u.total_deposited + r } hi
          rw [hget] at hset
          rw [ht2]
          simp at hset
          simp
          omega

theorem runOps_preserves_inv {s s2 : SysState} {ops : List Op}
    (hinv : s.treasury.sum_deposited = sumDep s.users)
    (h : runOps s ops = some s2) :
    s2.treasury.sum_deposited = sumDep s2.users := by
  induction ops generalizing s with
  | nil =>
    unfold runOps at h
    simp at h
    subst h
    exact hinv
  | cons op rest ih =>
    unfold runOps at h
    cases ha : applyOp s op with
    | none => rw [ha] at h; simp at h
    | some s1 =>
      rw [ha] at h
      exact ih (applyOp_preserves_inv hinv ha) h

theorem sumDep_zero {l : List User} (h : ∀ u ∈ l, u.total_deposited = 0) :
    sumDep l = 0 := by
  induction l with
  | nil => rfl
  | cons u rest ih =>
    have hu := h u (by simp)
    have hr := ih (fun v hv => h v (by simp [hv]))
    simp [sumDep, hu, hr]

theorem borrowLimitMsg_ne_insufficient (m : Nat) :
    borrowLimitMsg m ≠ "Insufficient funds in lender's account" := by
  intro he
  have hl := congrArg String.length he
  unfold borrowLimitMsg at hl
  rw [String.length_append] at hl
  have h1 : ("Cannot borrow more than 10% of lender's deposit. Maximum: " :
      String).length = 58 := by decide
  have h2 : ("Insufficient funds in lender's account" : String).length = 38 := by
    decide
  rw [h1, h2] at hl
  omega

/-- Claim C1 counterexample: take a user with `total_deposited = 5`,
`total_withdrawn = 0`, a zero treasury, and `amount = 5`. The guard
`total_withdrawn + amount ≤ total_deposited` holds, yet `withdraw` does not
succeed: the unguarded `treasury.sum_deposited -= amount` underflows and the
process panics (result `none`), so `withdraw` neither succeeds nor returns a
recoverable error. -/
theorem claimC1_counterexample : ¬ claimC1At cxUser 5 ⟨0, 0⟩ := by
  intro h
  obtain ⟨u2, t2, r, he⟩ := h.2 (by decide)
  have hnone : withdraw cxUser 5 ⟨0, 0⟩ = none := by rfl
  rw [hnone] at he
  exact Option.noConfusion he

/-- Claim C1 (amended): for every user, treasury and amount such that
`total_withdrawn + amount` and `sum_withdrawn + amount` fit in `u32` and
`amount ≤ treasury.sum_deposited`, `withdraw` succeeds if and only if
`total_withdrawn + amount ≤ total_deposited`; on success it decreases
`total_deposited` by `amount`, increases `total_withdrawn` by `amount`,
decreases `sum_deposited` by `amount`, increases `sum_withdrawn` by `amount`
and returns the updated `total_withdrawn`; otherwise it returns the
recoverable error `"Something Went Wrong"`. -/
theorem withdraw_spec (u : User) (a : Nat) (t : Treasury)
    (hw : u.total_withdrawn + a < U32_LIM)
    (hts : a ≤ t.sum_deposited)
    (htw : t.sum_withdrawn + a < U32_LIM) :
    (u.total_withdrawn + a ≤ u.total_deposited →
      withdraw u a t = some
        ({ u with total_deposited := u.total_deposited - a,
                  total_withdrawn := u.total_withdrawn + a },
         { t with sum_deposited := t.sum_deposited - a,
                  sum_withdrawn := t.sum_withdrawn + a },
         Except.ok (u.total_withdrawn + a))) ∧
    (u.total_deposited < u.total_withdrawn + a →
      withdraw u a t = some (u, t, Except.error "Something Went Wrong")) := by
  constructor
  · intro hg
    unfold withdraw
    rw [chkAdd_lt hw, chkSub_le hts, chkAdd_lt htw]
    simp only [bind, Option.bind]
    rw [if_pos hg]
    rfl
  · intro hlt
    unfold withdraw
    rw [chkAdd_lt hw]
    simp only [bind, Option.bind]
    rw [if_neg (by omega)]
    rfl

/-- Witness for the amended claim C1 at a concrete input. -/
theorem withdraw_spec_witness :
    withdraw cxUser 5 ⟨5, 0⟩ =
      some (⟨0, "", 0, 5, false, false⟩, ⟨0, 5⟩, Except.ok 5) :=
  (withdraw_spec cxUser 5 ⟨5, 0⟩ (by decide) (by decide) (by decide)).1 (by decide)

/-- Claim C2: starting from a zero-initialized treasury and zero-balance
users, after every sequence of successful `deposit`, `deposit_with_fee`,
`withdraw`, `withdraw_with_fee`, `borrow` and `apply_interest` operations,
`treasury.sum_deposited` equals the sum of all users' `total_deposited`. -/
theorem treasury_mirrors_deposits (users0 : List User) (ops : List Op)
    (s2 : SysState)
    (h0 : ∀ u ∈ users0, u.total_deposited = 0 ∧ u.total_withdrawn = 0)
    (hrun : runOps ⟨users0, ⟨0, 0⟩⟩ ops = some s2) :
    s2.treasury.sum_deposited = sumDep s2.users := by
  apply runOps_preserves_inv ?_ hrun
  have hz : sumDep users0 = 0 := sumDep_zero (fun u hu => (h0 u hu).1)
  simpa using hz.symm

/-- Witness for claim C2: a three-operation run from two fresh users. -/
theorem treasury_mirrors_deposits_witness :
    demoEnd.treasury.sum_deposited = sumDep demoEnd.users :=
  treasury_mirrors_deposits [freshUser, freshUser] demoOps demoEnd
    (by decide) (by rfl)

/-- Claim C3 counterexample: for a lender with 1000 deposited who has NOT
enabled borrowing, a request of 500 exceeds the 10% limit of 100, yet
`borrow` fails with the borrowing-disabled error, which does not name the
maximum borrowable amount. -/
theorem claimC3_counterexample : ¬ claimC3At freshUser notBorrowableLender 500 := by
  intro h
  obtain ⟨b2, l2, he⟩ := h (by decide)
  have hdis : borrow freshUser notBorrowableLender 500 =
      some (freshUser, notBorrowableLender,
        Except.error "Lender has not enabled borrowing") :=
    borrow_not_borrowable (by rfl)
  rw [hdis] at he
  simp only [Option.some.injEq, Prod.mk.injEq] at he
  obtain ⟨-, -, he⟩ := he
  injection he with he
  exact absurd he (by decide)

/-- Claim C3 (amended): for every borrower, lender and amount, if the lender
has enabled borrowing and `lender.total_deposited * 10` fits in `u32`, then
whenever `amount > lender.total_deposited * 10 / 100` (exact integer
arithmetic), `borrow` fails with the error naming the maximum borrowable
amount, leaving both users unchanged. -/
theorem borrow_limit_exceeded (b l : User) (a : Nat) (hb : l.borrowable = true)
    (hm : l.total_deposited * 10 < U32_LIM)
    (ha : l.total_deposited * 10 / 100 < a) :
    borrow b l a = some (b, l,
      Except.error (borrowLimitMsg (l.total_deposited * 10 / 100))) :=
  borrow_limit hb hm ha

/-- Witness for the amended claim C3 at a concrete input. -/
theorem borrow_limit_exceeded_witness :
    borrow freshUser borrowableLender 101 =
      some (freshUser, borrowableLender, Except.error (borrowLimitMsg 100)) :=
  borrow_limit_exceeded freshUser borrowableLender 101 (by rfl) (by decide)
    (by decide)

/-- Claim C4 counterexample: at `amount = 30000000` the intermediate product
saturates at `u32::MAX`, so both fees differ from the exact
`floor(amount * rate / 10000)`. -/
theorem claimC4_counterexample :
    ¬ (calculate_entry_fee 30000000 = 30000000 * 200 / 10000 ∧
       calculate_exit_fee 30000000 = 30000000 * 400 / 10000) := by
  decide

/-- Claim C4 (amended): the exact formulas hold as long as the intermediate
product `amount * rate` fits in `u32`; beyond that the product saturates at
`u32::MAX` before the division. -/
theorem fee_formulas (a : Nat) :
    (a * 200 < U32_LIM → calculate_entry_fee a = a * 200 / 10000) ∧
    (a * 400 < U32_LIM → calculate_exit_fee a = a * 400 / 10000) ∧
    calculate_entry_fee a = min (a * 200) (U32_LIM - 1) / 10000 ∧
    calculate_exit_fee a = min (a * 400) (U32_LIM - 1) / 10000 := by
  refine ⟨?_, ?_, rfl, rfl⟩
  · intro h
    unfold calculate_entry_fee satMul
    rw [min_eq_left (by omega)]
  · intro h
    unfold calculate_exit_fee satMul
    rw [min_eq_left (by omega)]

/-- Witness for the amended claim C4 at a concrete input. -/
theorem fee_formulas_witness :
    calculate_entry_fee 1000 = 1000 * 200 / 10000 ∧
    calculate_exit_fee 1000 = 1000 * 400 / 10000 :=
  ⟨(fee_formulas 1000).1 (by decide), (fee_formulas 1000).2.1 (by decide)⟩

/-- Claim C5 counterexample: deposit 10 with fee (fee 0, net 10), then
withdraw the net 10 with fee (exit fee 0, total 10). The withdrawal
succeeds and the final state has `total_withdrawn = 10` while
`total_deposited = 0`, so `total_withdrawn` does exceed `total_deposited`
after the second step and the guard did not reject the call. -/
theorem claimC5_counterexample : ¬ claimC5At 10 := by
  intro h
  have hc := h ⟨0, "", 10, 0, true, true⟩ ⟨10, 0⟩ ⟨0, "", 0, 10, true, true⟩
    ⟨0, 10⟩ (Except.ok 10) (by rfl) (by rfl)
  exact absurd hc.2 (by decide)

/-- Claim C5 (amended): after `deposit_with_fee amount` into a fresh user and
treasury, and then `withdraw_with_fee` of the credited net, the user's
`total_withdrawn` never exceeds the net amount credited by the deposit
(`u1.total_deposited`); indeed `total_deposited + total_withdrawn` equals the
credited net at both steps. (`total_withdrawn` can exceed the final
`total_deposited`, which shrinks with each withdrawal.) -/
theorem deposit_then_withdraw_net (amount : Nat) (u1 u2 : User)
    (t1 t2 : Treasury) (r : Except String Nat)
    (h1 : deposit_with_fee freshUser amount freshTreasury true = some (u1, t1))
    (h2 : withdraw_with_fee u1 u1.total_deposited t1 = some (u2, t2, r)) :
    u1.total_withdrawn = 0 ∧
    u2.total_withdrawn ≤ u1.total_deposited ∧
    u2.total_deposited + u2.total_withdrawn = u1.total_deposited := by
  obtain ⟨hu1, -, -, -⟩ := deposit_eq_some (deposit_with_fee_eq_some h1)
  have hw0 : u1.total_withdrawn = 0 := by rw [hu1]; rfl
  refine ⟨hw0, ?_⟩
  rcases withdraw_with_fee_eq_some h2 with ⟨-, hww⟩ | ⟨-, hu2e, -, -⟩
  · obtain ⟨-, hc | hc⟩ := withdraw_eq_some hww
    · obtain ⟨hg, -, -, hu2e, -, -⟩ := hc
      rw [hu2e]
      simp only []
      constructor <;> omega
    · obtain ⟨-, hu2e, -, -⟩ := hc
      rw [hu2e]
      constructor <;> omega
  · rw [hu2e]
    constructor <;> omega

/-- Witness for the amended claim C5 at amount 100: net credited 98, the
fee-inflated withdrawal of 98 + 3 = 101 is rejected by the guard. -/
theorem deposit_then_withdraw_net_witness :
    w5u1.total_withdrawn = 0 ∧
    w5u1.total_withdrawn ≤ w5u1.total_deposited ∧
    w5u1.total_deposited + w5u1.total_withdrawn = w5u1.total_deposited :=
  deposit_then_withdraw_net 100 w5u1 w5u1 w5t1 w5t1
    (Except.error "Something Went Wrong") (by rfl) (by rfl)

/-- Claim C6 is a code bug in `borrow` (and `apply_interest`): the lender's
balance is reassigned before the borrower-side `checked_add`, so when that
overflow is surfaced as the recoverable error `"Arithmetic overflow"` the
lender has already been debited — a partial update observable by the caller.
Concretely: borrower at `u32::MAX`, lender with 1000 (borrowable), amount
100 → error returned, lender left at 900. -/
theorem borrow_partial_update :
    borrow maxedBorrower borrowableLender 100 =
      some (maxedBorrower, { borrowableLender with total_deposited := 900 },
        Except.error "Arithmetic overflow") ∧
    { borrowableLender with total_deposited := 900 } ≠ borrowableLender := by
  exact ⟨by rfl, by decide⟩

/-- Claim C7: `calculate_interest_rate` (and hence `apply_interest`) fails
with `"Invalid treasury state"` iff `sum_deposited = 0` or
`sum_withdrawn = 0`; when both are positive it returns the saturating product
`sum_deposited * total_deposited` divided by `sum_withdrawn`, truncated. -/
theorem interest_invalid_state_iff (t : Treasury) (u : User) :
    (calculate_interest_rate t u = Except.error "Invalid treasury state" ↔
      t.sum_deposited = 0 ∨ t.sum_withdrawn = 0) ∧
    ((apply_interest t u).2.2 = Except.error "Invalid treasury state" ↔
      t.sum_deposited = 0 ∨ t.sum_withdrawn = 0) ∧
    (0 < t.sum_deposited → 0 < t.sum_withdrawn →
      calculate_interest_rate t u =
        Except.ok (satMul t.sum_deposited u.total_deposited / t.sum_withdrawn)) := by
  refine ⟨?_, ?_, ?_⟩
  · by_cases hc : 0 < t.sum_deposited ∧ 0 < t.sum_withdrawn
    · refine iff_of_false ?_ (by omega)
      unfold calculate_interest_rate
      rw [if_pos hc]
      simp
    · refine iff_of_true ?_ (by omega)
      unfold calculate_interest_rate
      rw [if_neg hc]
  · rw [apply_interest_invalid_iff]
    constructor <;> intro h <;> omega
  · intro h1 h2
    unfold calculate_interest_rate
    rw [if_pos ⟨h1, h2⟩]

/-- Witness for claim C7 at a concrete treasury and user. -/
theorem interest_invalid_state_iff_witness :
    calculate_interest_rate ⟨5, 2⟩ ⟨0, "", 3, 0, false, false⟩ =
      Except.ok (satMul 5 3 / 2) :=
  (interest_invalid_state_iff ⟨5, 2⟩ ⟨0, "", 3, 0, false, false⟩).2.2
    (by decide) (by decide)

/-- Claim C8: every successful `deposit` increases `treasury.sum_deposited`
by exactly the amount credited to the user, and `deposit_with_fee` credits
the net `amount - entry_fee` to both; in particular `deposit_with_fee 1000`
on a fresh user and treasury credits 980 and leaves `sum_deposited = 980`. -/
theorem deposit_mirrors_net :
    (∀ u a t bl u2 t2, deposit u a t bl = some (u2, t2) →
      u2.total_deposited = u.total_deposited + a ∧
      t2.sum_deposited = t.sum_deposited + a) ∧
    (∀ u a t bl u2 t2, deposit_with_fee u a t bl = some (u2, t2) →
      u2.total_deposited = u.total_deposited + (a - calculate_entry_fee a) ∧
      t2.sum_deposited = t.sum_deposited + (a - calculate_entry_fee a)) ∧
    deposit_with_fee freshUser 1000 freshTreasury true =
      some (⟨0, "", 980, 0, true, true⟩, ⟨980, 0⟩) := by
  refine ⟨?_, ?_, by rfl⟩
  · intro u a t bl u2 t2 h
    obtain ⟨hu2, ht2, -, -⟩ := deposit_eq_some h
    rw [hu2, ht2]
    exact ⟨rfl, rfl⟩
  · intro u a t bl u2 t2 h
    obtain ⟨hu2, ht2, -, -⟩ := deposit_eq_some (deposit_with_fee_eq_some h)
    rw [hu2, ht2]
    exact ⟨rfl, rfl⟩

/-- Witness for claim C8 at a concrete deposit of 7. -/
theorem deposit_mirrors_net_witness :
    (⟨0, "", 7, 0, true, false⟩ : User).total_deposited =
      freshUser.total_deposited + 7 ∧
    (⟨7, 0⟩ : Treasury).sum_deposited = freshTreasury.sum_deposited + 7 :=
  deposit_mirrors_net.1 freshUser 7 freshTreasury false ⟨0, "", 7, 0, true, false⟩
    ⟨7, 0⟩ (by rfl)

/-- Claim C9: a successful `borrow` moves exactly `amount` from the lender's
`total_deposited` to the borrower's (their sum is conserved) and changes
nothing else: both users' `total_withdrawn`, `has_deposited`, `borrowable`,
`id` and `name` are unchanged, and the treasury is untouched (`borrow` does
not even receive it). -/
theorem borrow_transfer (b l : User) (a : Nat) (b2 l2 : User) (r : Nat)
    (h : borrow b l a = some (b2, l2, Except.ok r)) :
    a ≤ l.total_deposited ∧
    l2.total_deposited = l.total_deposited - a ∧
    b2.total_deposited = b.total_deposited + a ∧
    b2.total_deposited + l2.total_deposited =
      b.total_deposited + l.total_deposited ∧
    b2.total_withdrawn = b.total_withdrawn ∧
    l2.total_withdrawn = l.total_withdrawn ∧
    b2.has_deposited = b.has_deposited ∧
    l2.has_deposited = l.has_deposited ∧
    b2.borrowable = b.borrowable ∧
    l2.borrowable = l.borrowable ∧
    b2.id = b.id ∧ l2.id = l.id ∧ b2.name = b.name ∧ l2.name = l.name ∧
    r = a := by
  obtain ⟨-, -, -, hale, -, hb2, hl2, hr⟩ := borrow_ok h
  subst hb2
  subst hl2
  subst hr
  refine ⟨hale, rfl, rfl, by simp only []; omega, rfl, rfl, rfl, rfl, rfl,
    rfl, rfl, rfl, rfl, rfl, rfl⟩

/-- Witness for claim C9: borrowing 50 from a lender with 1000. -/
theorem borrow_transfer_witness :
    (⟨0, "", 50, 0, false, false⟩ : User).total_deposited +
      (⟨0, "", 950, 0, false, true⟩ : User).total_deposited =
      freshUser.total_deposited + borrowableLender.total_deposited :=
  (borrow_transfer freshUser borrowableLender 50 ⟨0, "", 50, 0, false, false⟩
    ⟨0, "", 950, 0, false, true⟩ 50 (by rfl)).2.2.2.1

/-- Claim C10: the `"Insufficient funds in lender's account"` branch of
`borrow` is unreachable — `borrow` never returns that error — because
whenever the lender is borrowable and the limit computation does not panic,
`amount ≤ total_deposited * 10 / 100 ≤ total_deposited`. -/
theorem insufficient_funds_unreachable :
    (∀ (b l : User) (a : Nat) (b2 l2 : User), borrow b l a ≠
      some (b2, l2, Except.error "Insufficient funds in lender's account")) ∧
    (∀ (l : User) (a : Nat), l.borrowable = true →
      l.total_deposited * 10 < U32_LIM →
      a ≤ l.total_deposited * 10 / 100 → a ≤ l.total_deposited) := by
  have hdiv : ∀ d : Nat, d * 10 / 100 ≤ d := by
    intro d
    omega
  constructor
  · intro b l a b2 l2 h
    unfold borrow at h
    by_cases hb : l.borrowable
    · rw [if_neg (by simp [hb])] at h
      cases h1 : chkMul l.total_deposited 10 with
      | none => rw [h1] at h; simp at h
      | some p =>
        rw [h1] at h
        obtain ⟨hp, -⟩ := chkMul_some h1
        subst hp
        simp only [bind, Option.bind] at h
        by_cases hlim : l.total_deposited * 10 / 100 < a
        · rw [if_pos hlim] at h
          simp only [pure, Option.some.injEq, Prod.mk.injEq] at h
          obtain ⟨-, -, he⟩ := h
          injection he with he
          exact borrowLimitMsg_ne_insufficient _ he
        · rw [if_neg hlim] at h
          rw [if_neg (by have := hdiv l.total_deposited; omega)] at h
          rw [chkSub_le (by have := hdiv l.total_deposited; omega)] at h
          cases h2 : chkAdd b.total_deposited a with
          | none =>
            rw [h2] at h
            simp only [pure, Option.some.injEq, Prod.mk.injEq] at h
            obtain ⟨-, -, he⟩ := h
            injection he with he
            exact absurd he (by decide)
          | some bd =>
            rw [h2] at h
            simp at h
    · rw [if_pos (by simp [Bool.not_eq_true] at hb; simp [hb])] at h
      simp only [pure, Option.some.injEq, Prod.mk.injEq] at h
      obtain ⟨-, -, he⟩ := h
      injection he with he
      exact absurd he (by decide)
  · intro l a hb hm ha
    exact le_trans ha (hdiv l.total_deposited)

/-- Witness for claim C10's arithmetic part at a concrete lender. -/
theorem insufficient_funds_unreachable_witness :
    (50 : Nat) ≤ borrowableLender.total_deposited :=
  insufficient_funds_unreachable.2 borrowableLender 50 (by rfl) (by decide)
    (by decide)

end Banking
